import Mathlib

/-!
Verification of the jwm icon cache, icon scaler and background manager
(src/icon.c, src/background.c) against their natural-language specification.

The C code is shallowly embedded:
* machine integers are `Nat` with explicit `% 2^32` where 32-bit overflow
  matters (the string hash, the binary-property size guard);
* the intrusive doubly-linked hash buckets of the icon cache are modelled by
  an explicit heap: an association list from allocation ids to icon records
  whose `prev`/`next` fields hold optional ids, plus a bucket-head function;
* native X resources (pixmaps, GCs, pictures) carry no information relevant
  to the claims and their creation/release is a no-op in the model;
* external collaborators (the image decoder `LoadImage`, the color parser
  `ParseColor`, pixmap allocation) are oracle function parameters.
-/

set_option autoImplicit false

namespace JWM

/-! ### String hash (GetHash, icon.c lines 812-823)

C strings are byte arrays; names used by the claims are ASCII, for which
`Char.toNat` agrees with the C `(unsigned int)str[x]` cast.  The accumulator
is an `unsigned int`, hence the explicit `% 2^32`.  `HASH_SIZE = 128` and
`hash &= HASH_SIZE - 1` is `% 128`. -/

def HASH_SIZE : Nat := 128

/-- One step of the polynomial hash: `hash = (hash + (hash << 5)) ^ byte`. -/
def hashStep (h c : Nat) : Nat := ((h + h * 32) % 4294967296) ^^^ c

/-- Fold of `hashStep` over the characters of a string, starting from 0. -/
def strHash (s : List Char) : Nat := s.foldl (fun h c => hashStep h c.toNat) 0

/-- GetHash from icon.c: a `NULL` string hashes to 0 (the `if(str)` guard);
otherwise the polynomial hash folded into the 128-entry bucket table. -/
def GetHash : Option String → Nat
  | none => 0
  | some s => strHash s.data % HASH_SIZE

/-! ### Icon records and the icon heap -/

/-- One decoded image variant (ImageNode): a fixed native resolution, either
a 1-bit bitmap (mask-only) or RGBA data. -/
structure ImageNode where
  width : Nat
  height : Nat
  bitmap : Bool
deriving DecidableEq, Repr

/-- IconNode from icon.c: optional cache name, aspect flag, intrusive
`prev`/`next` hash-chain pointers (optional allocation ids), image list. -/
structure IconNode where
  name : Option String
  preserveAspect : Bool
  prev : Option Nat
  next : Option Nat
  images : List ImageNode
deriving DecidableEq, Repr

/-- The icon subsystem state: allocated icons (id-keyed association list,
most recent first), the allocation counter, and the 128 hash-bucket heads
(`iconHash`), each an optional id of the first chain node. -/
structure IconHeap where
  nodes : List (Nat × IconNode)
  nextId : Nat
  buckets : Nat → Option Nat

/-- Lookup of an id in an association list (first match wins). -/
def lookupAssoc : List (Nat × IconNode) → Nat → Option IconNode
  | [], _ => none
  | p :: ps, i => if p.1 = i then some p.2 else lookupAssoc ps i

/-- Dereference an icon id in the heap. -/
def lookupNode (h : IconHeap) (i : Nat) : Option IconNode :=
  lookupAssoc h.nodes i

/-- Update the icon record stored at id `i` (pointer write through `i`). -/
def setNode (h : IconHeap) (i : Nat) (f : IconNode → IconNode) : IconHeap :=
  { h with nodes := h.nodes.map (fun p => if p.1 = i then (p.1, f p.2) else p) }

/-- Free the icon record at id `i` (`Release(icon)`). -/
def removeNode (h : IconHeap) (i : Nat) : IconHeap :=
  { h with nodes := h.nodes.filter (fun p => p.1 != i) }

/-- Write one bucket head of `iconHash`. -/
def setBucket (h : IconHeap) (idx : Nat) (v : Option Nat) : IconHeap :=
  { h with buckets := fun k => if k = idx then v else h.buckets k }

/-- CreateIcon (icon.c lines 713-723): allocate a fresh record with no name,
`preserveAspect = 1`, null chain pointers and no images. -/
def CreateIcon (h : IconHeap) : Nat × IconHeap :=
  (h.nextId,
   { h with
      nodes := (h.nextId, ⟨none, true, none, none, []⟩) :: h.nodes
      nextId := h.nextId + 1 })

/-- InsertIcon (icon.c lines 782-794): push the icon at the head of the
bucket selected by the hash of its name, fixing up `prev` of the old head.
The assignment order mirrors the C code. -/
def InsertIcon (h : IconHeap) (i : Nat) : IconHeap :=
  match lookupNode h i with
  | none => h
  | some nd =>
    let idx := GetHash nd.name
    let oldHead := h.buckets idx
    let h1 := setNode h i (fun n => { n with prev := none })
    let h2 := match oldHead with
              | some j => setNode h1 j (fun n => { n with prev := some i })
              | none => h1
    let h3 := setNode h2 i (fun n => { n with next := oldHead })
    setBucket h3 idx (some i)

/-- Walk a hash chain comparing names (`strcmp`), with fuel bounding the
number of dereferences; `FindIcon` supplies fuel exceeding the heap size,
which suffices for every chain the operations build. -/
def findChain (h : IconHeap) (name : String) : Nat → Option Nat → Option Nat
  | _, none => none
  | 0, some _ => none
  | fuel + 1, some i =>
    match lookupNode h i with
    | none => none
    | some nd => if nd.name = some name then some i else findChain h name fuel nd.next

/-- FindIcon (icon.c lines 797-809): scan the bucket chain for the name. -/
def FindIcon (h : IconHeap) (name : String) : Option Nat :=
  findChain h name (h.nodes.length + 1) (h.buckets (GetHash (some name)))

/-- DoDestroyIcon (icon.c lines 726-770): release the renderings and images
(native resources, no-op here), unlink the icon from the bucket chain at
`index` using its `prev`/`next` fields, and free the record.  Note the
unlink is unconditional: for an icon whose `prev` is null the bucket head at
`index` is overwritten with the icon's `next`, whether or not the icon was
ever part of that chain. -/
def DoDestroyIcon (h : IconHeap) (index : Nat) (i : Nat) : IconHeap :=
  match lookupNode h i with
  | none => h
  | some nd =>
    let h1 := match nd.prev with
              | none => setBucket h index nd.next
              | some p => setNode h p (fun n => { n with next := nd.next })
    let h2 := match nd.next with
              | some q => setNode h1 q (fun n => { n with prev := nd.prev })
              | none => h1
    removeNode h2 i

/-- DestroyIcon (icon.c lines 773-779): only icons without a cache name are
destroyed; the bucket index passed down is `GetHash(icon->name)` computed on
the (null) name of the icon being destroyed. -/
def DestroyIcon (h : IconHeap) (i : Nat) : IconHeap :=
  match lookupNode h i with
  | none => h
  | some nd => if nd.name = none then DoDestroyIcon h (GetHash nd.name) i else h

/-- One bucket of ShutdownIcons: `while(iconHash[x]) DoDestroyIcon(x, iconHash[x])`,
with fuel bounding the iterations. -/
def shutdownBucket (h : IconHeap) (x : Nat) : Nat → IconHeap
  | 0 => h
  | fuel + 1 =>
    match h.buckets x with
    | none => h
    | some i => shutdownBucket (DoDestroyIcon h x i) x fuel

/-- ShutdownIcons (icon.c lines 130-139): drain every bucket of the hash. -/
def ShutdownIcons (h : IconHeap) : IconHeap :=
  (List.range HASH_SIZE).foldl (fun h x => shutdownBucket h x h.nodes.length) h

/-- CreateIconFromFile (icon.c lines 426-457): probe the cache first; on a
miss, decode through the external image store (`loadImage` oracle); on
success allocate a record, and when `save` is set record the name and insert
it into the cache. -/
def CreateIconFromFile (loadImage : String → Option (List ImageNode))
    (h : IconHeap) (fileName : String) (save preserveAspect : Bool) :
    Option Nat × IconHeap :=
  match FindIcon h fileName with
  | some i => (some i, h)
  | none =>
    match loadImage fileName with
    | none => (none, h)
    | some imgs =>
      let ih := CreateIcon h
      let h2 := setNode ih.2 ih.1
        (fun n => { n with preserveAspect := preserveAspect, images := imgs })
      if save then
        let h3 := setNode h2 ih.1 (fun n => { n with name := some fileName })
        (some ih.1, InsertIcon h3 ih.1)
      else
        (some ih.1, h2)

/-! ### Icon resolver (GetBestImage, icon.c lines 460-499) -/

/-- One iteration of the GetBestImage loop: compare the running best against
the next candidate using the overlap of each with the requested size, ties
broken by strictly smaller area.  With both requested dimensions 0 the
overlaps are both set to 0. -/
def bestStep (rw rh : Nat) (best ip : ImageNode) : ImageNode :=
  let bestArea := best.width * best.height
  let otherArea := ip.width * ip.height
  let ov : Nat × Nat :=
    if rw = 0 ∧ rh = 0 then (0, 0)
    else if rw = 0 then (min best.height rh, min ip.height rh)
    else if rh = 0 then (min best.width rw, min ip.width rw)
    else (min best.width rw * min best.height rh,
          min ip.width rw * min ip.height rh)
  if ov.2 > ov.1 then ip
  else if ov.2 = ov.1 ∧ otherArea < bestArea then ip
  else best

/-- GetBestImage: linear scan over the icon's variant list starting from its
first element (`icon->images` is non-empty at every call site, so the list
is passed as head plus tail). -/
def GetBestImage (first : ImageNode) (rest : List ImageNode) (rw rh : Nat) :
    ImageNode :=
  rest.foldl (bestStep rw rh) first

/-! ### Icon scaler (GetScaledIcon, icon.c lines 502-656)

The model covers the software rendering backend (the build without
USE_XRENDER); the rasterization itself only touches native resources, so the
model keeps a rendering's cache key (size and foreground) and an allocation
id standing for the pixmap/mask pair. -/

/-- ScaledIconNode: one memoized rendering, keyed by size and foreground;
`id` is the allocation identity used to state reference equality. -/
structure ScaledNode where
  id : Nat
  fg : Nat
  width : Nat
  height : Nat
deriving DecidableEq, Repr

/-- An ImageNode together with its list of memoized renderings
(`iconImage->nodes`, most recently created first). -/
structure ImageState where
  width : Nat
  height : Nat
  bitmap : Bool
  nodes : List ScaledNode
deriving DecidableEq, Repr

/-- Effective target size (icon.c lines 518-535): substitute the native
dimension for a 0 request, then, when aspect is preserved, the 16.16
fixed-point computation (`>> 16` on non-negative ints is division by 2^16),
and finally clamp both dimensions to at least 1. -/
def effectiveSize (preserveAspect : Bool) (iw ih rw0 rh0 : Nat) : Nat × Nat :=
  let rw := if rw0 = 0 then iw else rw0
  let rh := if rh0 = 0 then ih else rh0
  if preserveAspect then
    let r16 := (iw * 65536) / ih
    let nw1 := min rw ((rh * r16) / 65536)
    let nh := min rh ((nw1 * 65536) / r16)
    let nw := (nh * r16) / 65536
    (max 1 nw, max 1 nh)
  else
    (max 1 rw, max 1 rh)

/-- Cache-probe predicate (icon.c lines 548-552): sizes must match, and the
foreground only when the variant is a bitmap. -/
def scaledMatch (bitmap : Bool) (fg nw nh : Nat) (n : ScaledNode) : Bool :=
  n.width == nw && n.height == nh && (!bitmap || n.fg == fg)

/-- Scan of the rendering list for a cache hit (first match wins). -/
def findScaled (bitmap : Bool) (fg nw nh : Nat) :
    List ScaledNode → Option ScaledNode
  | [] => none
  | n :: ns => if scaledMatch bitmap fg nw nh n then some n
               else findScaled bitmap fg nw nh ns

/-- GetScaledIcon, software path: compute the effective size, probe the
cache, and on a miss rasterize a new rendering (allocated with the fresh id
`fresh`) and push it at the head of the variant's rendering list. -/
def GetScaledIcon (preserveAspect : Bool) (img : ImageState) (fresh : Nat)
    (fg rw rh : Nat) : ScaledNode × ImageState × Nat :=
  let s := effectiveSize preserveAspect img.width img.height rw rh
  match findScaled img.bitmap fg s.1 s.2 img.nodes with
  | some n => (n, img, fresh)
  | none =>
    let n : ScaledNode := ⟨fresh, fg, s.1, s.2⟩
    (n, { img with nodes := n :: img.nodes }, fresh + 1)

/-! ### Binary property decoding (CreateIconFromBinary, icon.c lines 659-710)

The input is the word array of a `_NET_WM_ICON` property.  `width` and
`height` are `unsigned int` copies of `unsigned long` words (`% 2^32`), the
size guard `width * height + 2 > length - offset` is computed in 32-bit
unsigned arithmetic, and each accepted entry contributes one variant whose
pixel bytes are extracted as (alpha, red, green, blue) from each word.  The
model additionally records every index read from the input array, so that
out-of-bounds accesses are statable. -/

/-- One parsed variant of the property: declared size plus the extracted
byte stream (4 bytes per pixel, alpha first). -/
structure BinImage where
  width : Nat
  height : Nat
  pixels : List Nat
deriving DecidableEq, Repr

/-- Byte extraction for one data word: `(w >> 24) & 0xFF` down to `w & 0xFF`. -/
def wordBytes (w : Nat) : List Nat :=
  [(w >>> 24) &&& 255, (w >>> 16) &&& 255, (w >>> 8) &&& 255, w &&& 255]

/-- Sequential read of `k` data words starting at `off` (out-of-range reads
return 0, as junk standing for whatever memory follows the buffer). -/
def readData (input : List Nat) : Nat → Nat → List Nat
  | _, 0 => []
  | off, k + 1 => wordBytes (input.getD off 0) ++ readData input (off + 1) k

/-- The word indices the data loop of one entry dereferences. -/
def readIdxs (off k : Nat) : List Nat := (List.range k).map (off + ·)

/-- The parse loop of CreateIconFromBinary: at each `offset < length` read
the two header words, apply the 32-bit size guard and the zero-size guard
(either failure returns the variants parsed so far), otherwise extract the
pixel data and continue after the entry.  Returns the variant list (most
recently parsed first, mirroring the prepend in the C code) and every input
index read.  `fuel ≥ length - offset` makes the fuel case unreachable. -/
def parseLoop (input : List Nat) (length : Nat) :
    Nat → Nat → List BinImage → List Nat → List BinImage × List Nat
  | 0, _, variants, reads => (variants, reads)
  | fuel + 1, offset, variants, reads =>
    if offset < length then
      let width := input.getD offset 0 % 4294967296
      let height := input.getD (offset + 1) 0 % 4294967296
      let reads1 := reads ++ [offset, offset + 1]
      let p := width * height % 4294967296
      if (p + 2) % 4294967296 > length - offset then (variants, reads1)
      else if width = 0 ∨ height = 0 then (variants, reads1)
      else
        parseLoop input length fuel (offset + 2 + p)
          (⟨width, height, readData input (offset + 2) p⟩ :: variants)
          (reads1 ++ readIdxs (offset + 2) p)
    else (variants, reads)

/-- CreateIconFromBinary: run the parse loop from offset 0; `NULL` (none) is
returned when no variant was parsed. -/
def CreateIconFromBinary (input : List Nat) (length : Nat) :
    Option (List BinImage) :=
  let r := parseLoop input length length 0 [] []
  if r.1 = [] then none else some r.1

/-- The indices CreateIconFromBinary reads from the input array. -/
def binaryReads (input : List Nat) (length : Nat) : List Nat :=
  (parseLoop input length length 0 [] []).2

/-! ### Background manager (background.c) -/

/-- Background types (background.c lines 21-26). -/
inductive BackgroundType where
  | solid
  | gradient
  | command
  | image
deriving DecidableEq, Repr

/-- BackgroundNode: desktop index (−1 is the default sentinel), type, raw
value string, and the materialized pixel / pixmap (0 before startup). -/
structure BackgroundNode where
  desktop : Int
  type : BackgroundType
  value : String
  pixel : Nat
  pixmap : Nat
deriving DecidableEq, Repr

/-- The background manager state: the descriptor list (prepend on
registration), the resolved default descriptor, and the last activated
descriptor. -/
structure BgState where
  backgrounds : List BackgroundNode
  defaultBackground : Option BackgroundNode
  lastBackground : Option BackgroundNode
deriving DecidableEq, Repr

/-- The observable native effects of LoadBackground: the root-window
attribute change (solid carries the pixel and the border pixmap it also
writes, the gradient/image case carries the background pixmap), the window
clear, and the command spawn. -/
inductive BgEffect where
  | changeAttrSolid (pixel : Nat) (borderPixmap : Nat)
  | changeAttrPixmap (pixmap : Nat)
  | clearWindow
  | runCommand (value : String)
deriving DecidableEq, Repr

/-- Type-string parsing in SetBackground (background.c lines 137-149):
`NULL` means solid; an unrecognized string is rejected with a warning. -/
def parseBackgroundType : Option String → Option BackgroundType
  | none => some .solid
  | some t =>
    if t = "solid" then some .solid
    else if t = "gradient" then some .gradient
    else if t = "command" then some .command
    else if t = "image" then some .image
    else none

/-- SetBackground (background.c lines 126-161): reject a missing value or an
unknown type, otherwise prepend a new descriptor node to the list. -/
def SetBackground (st : BgState) (desktop : Int)
    (type : Option String) (value : Option String) : BgState :=
  match value with
  | none => st
  | some v =>
    match parseBackgroundType type with
    | none => st
    | some ty =>
      { st with backgrounds :=
          ⟨desktop, ty, v, 0, 0⟩ :: st.backgrounds }

/-- Materialization of one descriptor (background.c lines 66-82): solid
resolves a pixel through the external color parser; gradient and image
rasterize into a fresh pixmap (native work abstracted by the `allocPixmap`
oracle); command defers everything to activation. -/
def materializeNode (parseColor : String → Nat)
    (allocPixmap : BackgroundNode → Nat) (bp : BackgroundNode) :
    BackgroundNode :=
  match bp.type with
  | .solid => { bp with pixel := parseColor bp.value }
  | .gradient => { bp with pixmap := allocPixmap bp }
  | .command => bp
  | .image => { bp with pixmap := allocPixmap bp }

/-- StartupBackgrounds (background.c lines 59-90): materialize every
descriptor in list order and let each node with desktop −1 overwrite the
default pointer (the last one in iteration order wins). -/
def StartupBackgrounds (parseColor : String → Nat)
    (allocPixmap : BackgroundNode → Nat) (st : BgState) : BgState :=
  let r := st.backgrounds.foldl
    (fun (acc : List BackgroundNode × Option BackgroundNode) bp =>
      let bp' := materializeNode parseColor allocPixmap bp
      (acc.1 ++ [bp'], if bp'.desktop = -1 then some bp' else acc.2))
    ([], none)
  { backgrounds := r.1, defaultBackground := r.2,
    lastBackground := st.lastBackground }

/-- The descriptor lookup loop of LoadBackground (lines 171-175): first list
node registered for the desktop. -/
def lookupDesktop : List BackgroundNode → Int → Option BackgroundNode
  | [], _ => none
  | bp :: rest, d => if bp.desktop = d then some bp else lookupDesktop rest d

/-- Descriptor resolution (lines 171-178): the desktop's own descriptor,
else the default. -/
def resolveBackground (st : BgState) (d : Int) : Option BackgroundNode :=
  match lookupDesktop st.backgrounds d with
  | some bp => some bp
  | none => st.defaultBackground

/-- The identity check against the last activated descriptor (lines
186-188): same type and equal value strings. -/
def bgSame (last : Option BackgroundNode) (bp : BackgroundNode) : Bool :=
  match last with
  | none => false
  | some lb => if bp.type = lb.type ∧ bp.value = lb.value then true else false

/-- The application half of LoadBackground (lines 181-212): no descriptor
means return; an unchanged descriptor means skip; otherwise record it as
last and either spawn the command or change the root attributes and clear. -/
def applyBackground (st : BgState) : Option BackgroundNode →
    BgState × List BgEffect
  | none => (st, [])
  | some bp =>
    if bgSame st.lastBackground bp then (st, [])
    else
      let st' := { st with lastBackground := some bp }
      match bp.type with
      | .command => (st', [.runCommand bp.value])
      | .solid => (st', [.changeAttrSolid bp.pixel bp.pixmap, .clearWindow])
      | .gradient => (st', [.changeAttrPixmap bp.pixmap, .clearWindow])
      | .image => (st', [.changeAttrPixmap bp.pixmap, .clearWindow])

/-- LoadBackground (background.c lines 164-213): resolve then apply. -/
def LoadBackground (st : BgState) (d : Int) : BgState × List BgEffect :=
  applyBackground st (resolveBackground st d)

/-! ### Concrete scenario states used by the claim theorems -/

/-- Image-store oracle for the cache-dedup scenario: only "app" decodes. -/
def c1LoadImage : String → Option (List ImageNode) :=
  fun n => if n = "app" then some [⟨32, 32, false⟩] else none

/-- The freshly initialized icon state (InitializeIcons): no icons, all
buckets empty. -/
def emptyHeap : IconHeap := ⟨[], 0, fun _ => none⟩

/-- Image-store oracle that decodes every path (for the destroy scenarios). -/
def anyLoadImage : String → Option (List ImageNode) :=
  fun _ => some [⟨16, 16, false⟩]

/-- Heap holding the named icon "dd" (id 0, whose name hashes to bucket 0)
and the transient unnamed icon loaded from "tmp" with `save = false`
(id 1, never inserted into the hash). -/
def c5Heap : IconHeap :=
  (CreateIconFromFile anyLoadImage
    (CreateIconFromFile anyLoadImage emptyHeap "dd" true true).2
    "tmp" false true).2

/-- Heap with a single unnamed (transient) icon, id 0. -/
def c4Heap : IconHeap := ⟨[(0, ⟨none, true, none, none, []⟩)], 1, fun _ => none⟩

/-- Heap holding one named icon "app" (id 0), for the shutdown scenario. -/
def c4ShutHeap : IconHeap :=
  (CreateIconFromFile anyLoadImage emptyHeap "app" true true).2

/-- Color-parser oracle for the background fallback scenario. -/
def c10ParseColor : String → Nat :=
  fun v =>
    if v = "red" then 1
    else if v = "blue" then 2
    else if v = "green" then 3
    else 0

/-- The background state of the fallback scenario: desktop 0 solid red,
desktop 1 solid blue, default (−1) solid green, materialized at startup. -/
def c10State : BgState :=
  StartupBackgrounds c10ParseColor (fun _ => 0)
    (SetBackground
      (SetBackground
        (SetBackground ⟨[], none, none⟩ 0 (some "solid") (some "red"))
        1 (some "solid") (some "blue"))
      (-1) (some "solid") (some "green"))

/-- Background state with one command descriptor for desktop 0. -/
def c8State : BgState :=
  StartupBackgrounds (fun _ => 0) (fun _ => 0)
    (SetBackground ⟨[], none, none⟩ 0 (some "command") (some "xsetroot"))

/-! ### Helper lemmas -/

/-- Looking up an id in a heap from which it was just freed fails. -/
theorem lookupAssoc_filter_self (l : List (Nat × IconNode)) (i : Nat) :
    lookupAssoc (l.filter (fun p => p.1 != i)) i = none := by
  induction l with
  | nil => rfl
  | cons p ps ih =>
    by_cases hp : p.1 = i
    · simp [List.filter_cons, hp, ih]
    · simp [List.filter_cons, hp, lookupAssoc, ih]

/-- For a non-bitmap variant the cache-probe result does not depend on the
requested foreground. -/
theorem findScaled_nonbitmap_fg (fg fg2 nw nh : Nat) (l : List ScaledNode) :
    findScaled false fg nw nh l = findScaled false fg2 nw nh l := by
  induction l with
  | nil => rfl
  | cons m ms ih => simp [findScaled, scaledMatch, ih]

/-- With both requested dimensions 0 the tournament step degenerates to a
smaller-area comparison (all overlaps are 0). -/
theorem bestStep_zero (b i : ImageNode) :
    bestStep 0 0 b i = if i.width * i.height < b.width * b.height then i else b := by
  simp [bestStep]

/-- The state returned by a non-skipped application differs from the input
only in `lastBackground`. -/
theorem applyBackground_fst (st : BgState) (bp : BackgroundNode)
    (h : bgSame st.lastBackground bp = false) :
    (applyBackground st (some bp)).1 = { st with lastBackground := some bp } := by
  cases htype : bp.type <;> simp [applyBackground, h, htype]

/-- Updating the record at id `j` changes exactly the association of `j`. -/
theorem lookupAssoc_map_set (l : List (Nat × IconNode)) (j i : Nat)
    (f : IconNode → IconNode) :
    lookupAssoc (l.map (fun p => if p.1 = j then (p.1, f p.2) else p)) i
      = if i = j then (lookupAssoc l i).map f else lookupAssoc l i := by
  induction l with
  | nil => simp [lookupAssoc]
  | cons p ps ih =>
    by_cases hp : p.1 = j
    · by_cases hpi : p.1 = i
      · have hij : i = j := hpi ▸ hp
        simp [lookupAssoc, hp, hpi, hij]
      · have hji : ¬ j = i := fun hc => hpi (hp.trans hc)
        have hij : ¬ i = j := fun hc => hji hc.symm
        simp [lookupAssoc, hp, hpi, hji, hij, ih]
    · by_cases hpi : p.1 = i
      · have hij : ¬ i = j := fun hc => hp (hpi.symm ▸ hc ▸ rfl)
        simp [lookupAssoc, hp, hpi, hij]
      · simp [lookupAssoc, hp, hpi, ih]

/-- Heap-level reading of `lookupAssoc_map_set`. -/
theorem lookupNode_setNode (h : IconHeap) (j i : Nat) (f : IconNode → IconNode) :
    lookupNode (setNode h j f) i
      = if i = j then (lookupNode h i).map f else lookupNode h i :=
  lookupAssoc_map_set h.nodes j i f

/-- FindIcon succeeds on a heap whose bucket for `name` points at a live
icon named `name` (the shape every InsertIcon call produces, after the
final `next` write and bucket update). -/
theorem findIcon_setBucket_head (h : IconHeap) (i : Nat) (nd : IconNode)
    (name : String) (ob : Option Nat)
    (hlook : lookupNode h i = some nd) (hname : nd.name = some name) :
    FindIcon (setBucket (setNode h i (fun n => { n with next := ob }))
      (GetHash (some name)) (some i)) name = some i := by
  unfold FindIcon
  have hb : (setBucket (setNode h i fun n => { n with next := ob })
      (GetHash (some name)) (some i)).buckets (GetHash (some name)) = some i := by
    simp [setBucket]
  rw [hb]
  have hl : lookupNode (setBucket (setNode h i fun n => { n with next := ob })
      (GetHash (some name)) (some i)) i = some { nd with next := ob } := by
    show lookupNode (setNode h i fun n => { n with next := ob }) i = _
    rw [lookupNode_setNode]
    simp [hlook]
  simp [findChain, hl, hname]

/-- After InsertIcon of a live icon whose name is `name`, FindIcon on
`name` returns that icon: it sits at the head of its bucket's chain. -/
theorem findIcon_insertIcon (h : IconHeap) (i : Nat) (nd : IconNode)
    (name : String) (hlook : lookupNode h i = some nd)
    (hname : nd.name = some name) :
    FindIcon (InsertIcon h i) name = some i := by
  unfold InsertIcon
  rw [hlook]
  simp only [hname]
  have hl1 : lookupNode (setNode h i (fun n => { n with prev := none })) i
      = some { nd with prev := none } := by
    rw [lookupNode_setNode, if_pos rfl, hlook]
    rfl
  cases hbk : h.buckets (GetHash (some name)) with
  | none =>
    exact findIcon_setBucket_head _ i { nd with prev := none } name none hl1 hname
  | some j =>
    by_cases hij : i = j
    · have hl2 : lookupNode (setNode
          (setNode h i (fun n => { n with prev := none })) j
          (fun n => { n with prev := some i })) i
          = some { nd with prev := some i } := by
        rw [lookupNode_setNode, if_pos hij, hl1]
        rfl
      exact findIcon_setBucket_head _ i { nd with prev := some i } name
        (some j) hl2 hname
    · have hl2 : lookupNode (setNode
          (setNode h i (fun n => { n with prev := none })) j
          (fun n => { n with prev := some i })) i
          = some { nd with prev := none } := by
        rw [lookupNode_setNode, if_neg hij, hl1]
      exact findIcon_setBucket_head _ i { nd with prev := none } name
        (some j) hl2 hname

/-! ### Claim theorems -/

/-- C1: loading the same name twice through CreateIconFromFile with
`save = true` returns the same icon record both times: after a successful
first load the name is stored in the cache, so the second load's FindIcon
probe returns the stored id and the heap — including the allocation
counter — is left untouched; nothing new is allocated. -/
theorem c1_load_named_dedup (loadImage : String → Option (List ImageNode))
    (h h' : IconHeap) (name : String) (pa : Bool) (i : Nat)
    (hfirst : CreateIconFromFile loadImage h name true pa = (some i, h')) :
    FindIcon h' name = some i ∧
    CreateIconFromFile loadImage h' name true pa = (some i, h') := by
  have key : FindIcon h' name = some i := by
    unfold CreateIconFromFile at hfirst
    cases hfind : FindIcon h name with
    | some j =>
      rw [hfind] at hfirst
      simp only [Prod.mk.injEq, Option.some.injEq] at hfirst
      obtain ⟨rfl, rfl⟩ := hfirst
      exact hfind
    | none =>
      rw [hfind] at hfirst
      cases hload : loadImage name with
      | none =>
        rw [hload] at hfirst
        simp at hfirst
      | some imgs =>
        rw [hload] at hfirst
        simp only [if_true, Prod.mk.injEq, Option.some.injEq] at hfirst
        obtain ⟨rfl, rfl⟩ := hfirst
        apply findIcon_insertIcon
        · rw [lookupNode_setNode, if_pos rfl]
          rw [lookupNode_setNode, if_pos rfl]
          rw [show lookupNode (CreateIcon h).2 (CreateIcon h).1
              = some ⟨none, true, none, none, []⟩ from by
            simp [CreateIcon, lookupNode, lookupAssoc]]
          rfl
        · rfl
  refine ⟨key, ?_⟩
  unfold CreateIconFromFile
  rw [key]

/-- C1 witness: the dedup theorem applied at the concrete "app" load from
the freshly initialized state. -/
theorem c1_witness :
    FindIcon (CreateIconFromFile c1LoadImage emptyHeap "app" true true).2 "app"
      = some 0 ∧
    CreateIconFromFile c1LoadImage
        (CreateIconFromFile c1LoadImage emptyHeap "app" true true).2
        "app" true true
      = (some 0, (CreateIconFromFile c1LoadImage emptyHeap "app" true true).2) :=
  c1_load_named_dedup c1LoadImage emptyHeap _ "app" true 0 rfl

/-- C2: a second GetScaledIcon request at the same requested size (which
yields the same effective size) and the same foreground returns exactly the
rendering memoized by the first request, and allocates nothing; when the
variant is not a bitmap, the probe ignores the foreground entirely, so the
same rendering is also returned for any other requested foreground. -/
theorem c2_scaled_memoized (pa : Bool) (img img' : ImageState)
    (fresh fresh' fg fg2 rw0 rh0 : Nat) (n : ScaledNode)
    (hfirst : GetScaledIcon pa img fresh fg rw0 rh0 = (n, img', fresh')) :
    GetScaledIcon pa img' fresh' fg rw0 rh0 = (n, img', fresh') ∧
    (img.bitmap = false →
      GetScaledIcon pa img' fresh' fg2 rw0 rh0 = (n, img', fresh')) := by
  simp only [GetScaledIcon] at hfirst ⊢
  cases hfind : findScaled img.bitmap fg
      (effectiveSize pa img.width img.height rw0 rh0).1
      (effectiveSize pa img.width img.height rw0 rh0).2 img.nodes with
  | some m =>
    rw [hfind] at hfirst
    simp only [Prod.mk.injEq] at hfirst
    obtain ⟨rfl, rfl, rfl⟩ := hfirst
    constructor
    · rw [hfind]
    · intro hbm
      have hfind2 := hfind
      rw [hbm] at hfind2
      rw [hbm, findScaled_nonbitmap_fg fg2 fg, hfind2]
  | none =>
    rw [hfind] at hfirst
    simp only [Prod.mk.injEq] at hfirst
    obtain ⟨rfl, rfl, rfl⟩ := hfirst
    constructor
    · simp [findScaled, scaledMatch]
    · intro hbm
      simp [findScaled, scaledMatch, hbm]

/-- C2 witness: the memoization theorem at a concrete 16x16 RGBA variant,
first requested at 8x8 with foreground 5 and re-requested with foregrounds
5 and 7. -/
theorem c2_witness :
    GetScaledIcon false ⟨16, 16, false, [⟨0, 5, 8, 8⟩]⟩ 1 5 8 8
      = (⟨0, 5, 8, 8⟩, ⟨16, 16, false, [⟨0, 5, 8, 8⟩]⟩, 1) ∧
    GetScaledIcon false ⟨16, 16, false, [⟨0, 5, 8, 8⟩]⟩ 1 7 8 8
      = (⟨0, 5, 8, 8⟩, ⟨16, 16, false, [⟨0, 5, 8, 8⟩]⟩, 1) :=
  ⟨(c2_scaled_memoized false ⟨16, 16, false, []⟩ _ 0 _ 5 7 8 8
      ⟨0, 5, 8, 8⟩ rfl).1,
   (c2_scaled_memoized false ⟨16, 16, false, []⟩ _ 0 _ 5 7 8 8
      ⟨0, 5, 8, 8⟩ rfl).2 rfl⟩

set_option maxRecDepth 100000 in
/-- C4: DestroyIcon frees an icon exactly when it has no cache name — for
an unnamed icon the record is released (no longer dereferenceable), for a
named icon the call leaves the whole state untouched; named icons are
released at full shutdown, as the concrete conjuncts show for a cache
holding the named icon "app" (ShutdownIcons leaves an empty heap). -/
theorem c4_destroy_only_unnamed :
    (∀ (h : IconHeap) (i : Nat) (nd : IconNode), lookupNode h i = some nd →
      ((nd.name = none → lookupNode (DestroyIcon h i) i = none) ∧
       (∀ s, nd.name = some s → DestroyIcon h i = h))) ∧
    FindIcon (ShutdownIcons c4ShutHeap) "app" = none ∧
    (ShutdownIcons c4ShutHeap).nodes = [] := by
  refine ⟨?_, by decide, by decide⟩
  intro h i nd hlook
  constructor
  · intro hname
    unfold DestroyIcon
    rw [hlook]
    simp only [hname, if_pos rfl]
    unfold DoDestroyIcon
    rw [hlook]
    cases hp : nd.prev <;> cases hq : nd.next <;>
      simp [removeNode, lookupNode, lookupAssoc_filter_self]
  · intro s hname
    unfold DestroyIcon
    rw [hlook]
    simp [hname]

/-- C4 witness: destroying the concrete transient icon releases it. -/
theorem c4_witness : lookupNode (DestroyIcon c4Heap 0) 0 = none :=
  (c4_destroy_only_unnamed.1 c4Heap 0 ⟨none, true, none, none, []⟩ rfl).1 rfl

/-- C3 counterexample: with both requested dimensions 0 and the variant list
[32x32, 16x16], GetBestImage returns the 16x16 variant, not the first
element of the list as the claim states. -/
theorem c3_counterexample :
    GetBestImage ⟨32, 32, false⟩ [⟨16, 16, false⟩] 0 0 = ⟨16, 16, false⟩ ∧
    (⟨16, 16, false⟩ : ImageNode) ≠ ⟨32, 32, false⟩ := by decide

/-- C3 (amended): with both requested dimensions 0 every overlap is 0, so
the tie-break governs the whole scan: GetBestImage returns a variant of the
icon's list of minimal area (the first such variant, since only a strictly
smaller area replaces the running best). -/
theorem c3_zero_request_smallest_area (first : ImageNode) (rest : List ImageNode) :
    GetBestImage first rest 0 0 ∈ first :: rest ∧
    ∀ v ∈ first :: rest,
      (GetBestImage first rest 0 0).width * (GetBestImage first rest 0 0).height ≤
        v.width * v.height := by
  induction rest generalizing first with
  | nil =>
    refine ⟨by simp [GetBestImage], ?_⟩
    intro v hv
    have hveq : v = first := by simpa using hv
    subst hveq
    simp [GetBestImage]
  | cons ip rest ih =>
    have hfold : GetBestImage first (ip :: rest) 0 0
        = GetBestImage (bestStep 0 0 first ip) rest 0 0 := rfl
    obtain ⟨hmem, hmin⟩ := ih (bestStep 0 0 first ip)
    have hstep_le_first :
        (bestStep 0 0 first ip).width * (bestStep 0 0 first ip).height ≤
          first.width * first.height := by
      rw [bestStep_zero]
      split
      · omega
      · exact le_refl _
    have hstep_le_ip :
        (bestStep 0 0 first ip).width * (bestStep 0 0 first ip).height ≤
          ip.width * ip.height := by
      rw [bestStep_zero]
      split
      · exact le_refl _
      · omega
    constructor
    · rw [hfold]
      rcases List.mem_cons.mp hmem with heq | hrest
      · rw [heq, bestStep_zero]
        split
        · exact List.mem_cons_of_mem _ (List.mem_cons_self _ _)
        · exact List.mem_cons_self _ _
      · exact List.mem_cons_of_mem _ (List.mem_cons_of_mem _ hrest)
    · intro v hv
      rw [hfold]
      have hres_le_step :
          (GetBestImage (bestStep 0 0 first ip) rest 0 0).width *
            (GetBestImage (bestStep 0 0 first ip) rest 0 0).height ≤
          (bestStep 0 0 first ip).width * (bestStep 0 0 first ip).height :=
        hmin _ (List.mem_cons_self _ _)
      rcases List.mem_cons.mp hv with heq | hv2
      · subst heq
        exact le_trans hres_le_step hstep_le_first
      · rcases List.mem_cons.mp hv2 with heq | hv3
        · subst heq
          exact le_trans hres_le_step hstep_le_ip
        · exact hmin _ (List.mem_cons_of_mem _ hv3)

/-- C3 witness: a concrete instance of the amended statement, with the
minimality instantiated at the 32x32 variant. -/
theorem c3_witness :
    GetBestImage ⟨16, 16, false⟩ [⟨32, 32, false⟩] 0 0
        ∈ (⟨16, 16, false⟩ : ImageNode) :: [⟨32, 32, false⟩] ∧
    (GetBestImage ⟨16, 16, false⟩ [⟨32, 32, false⟩] 0 0).width *
        (GetBestImage ⟨16, 16, false⟩ [⟨32, 32, false⟩] 0 0).height ≤ 32 * 32 :=
  ⟨(c3_zero_request_smallest_area ⟨16, 16, false⟩ [⟨32, 32, false⟩]).1,
   (c3_zero_request_smallest_area ⟨16, 16, false⟩ [⟨32, 32, false⟩]).2
     ⟨32, 32, false⟩ (by simp)⟩

/-- C5: destroying the transient unnamed icon (id 1) is routed through
DoDestroyIcon with bucket index GetHash(NULL) = 0, whose unconditional
unlink overwrites the head of bucket 0 with the transient's null `next`
pointer.  The named icon "dd" (whose name hashes to bucket 0) was reachable
before the destroy and is orphaned afterwards — the named-icon cache is not
left unchanged. -/
theorem c5_transient_destroy_clobbers_bucket :
    FindIcon c5Heap "dd" = some 0 ∧
    lookupNode c5Heap 1 = some ⟨none, true, none, none, [⟨16, 16, false⟩]⟩ ∧
    FindIcon (DestroyIcon c5Heap 1) "dd" = none := by decide

/-- C6 counterexample: a 1x3 variant scaled to its own native size with
aspect preservation yields effective dimensions (1, 1), not (1, 3) — the
16.16 ratio 65536/3 rounds down and the height collapses. -/
theorem c6_counterexample :
    effectiveSize true 1 3 1 3 = (1, 1) ∧ ((1, 1) : Nat × Nat) ≠ (1, 3) := by decide

/-- C6 (amended): the native-size round trip with aspect preservation is
exact whenever the 16.16 ratio computation is exact, i.e. whenever the
native height divides width * 2^16 (in particular for every variant whose
dimensions are equal, or whose height is a power of two at most 2^16). -/
theorem c6_roundtrip_exact (iw ih : Nat) (hw : 0 < iw) (hh : 0 < ih)
    (hdvd : ih ∣ iw * 65536) :
    effectiveSize true iw ih iw ih = (iw, ih) := by
  have h65536 : (0 : Nat) < 65536 := by norm_num
  have hw1 : 1 ≤ iw := hw
  have hh1 : 1 ≤ ih := hh
  simp only [effectiveSize, ite_self, if_true]
  set r := iw * 65536 / ih with hr
  have hmul : ih * r = iw * 65536 := Nat.mul_div_cancel' hdvd
  have hpos : 0 < r := Nat.div_pos (Nat.le_of_dvd (Nat.mul_pos hw h65536) hdvd) hh
  have hcancel : iw * 65536 / 65536 = iw := Nat.mul_div_cancel iw h65536
  have hback : ih * r / r = ih := Nat.mul_div_cancel ih hpos
  rw [hmul, hcancel, min_self, ← hmul, hback, min_self, hmul, hcancel]
  rw [max_eq_right hw1, max_eq_right hh1]

/-- C6 witness: the amended round trip at the square 16x16 variant. -/
theorem c6_witness : effectiveSize true 16 16 16 16 = (16, 16) :=
  c6_roundtrip_exact 16 16 (by decide) (by decide) (by decide)

/-- C7: activating the same desktop twice in a row is idempotent — the
second LoadBackground call resolves the same descriptor, finds it type- and
value-identical to the last activated one, and returns without emitting any
native effect (no second attribute change, clear, or command spawn). -/
theorem c7_activation_idempotent (st : BgState) (d : Int) :
    LoadBackground (LoadBackground st d).1 d = ((LoadBackground st d).1, []) := by
  unfold LoadBackground
  cases hres : resolveBackground st d with
  | none => simp [applyBackground, hres]
  | some bp =>
    cases hsame : bgSame st.lastBackground bp with
    | true => simp [applyBackground, hres, hsame]
    | false =>
      rw [applyBackground_fst st bp hsame]
      have hres2 : resolveBackground { st with lastBackground := some bp } d
          = some bp := hres
      rw [hres2]
      simp [applyBackground, bgSame]

/-- C8 counterexample: a command background activated twice in a row runs
the command only once — the second activation is suppressed by the
last-activated identity check, which runs before the command switch. -/
theorem c8_counterexample :
    (LoadBackground c8State 0).2 = [.runCommand "xsetroot"] ∧
    (LoadBackground (LoadBackground c8State 0).1 0).2 = [] := by decide

/-- C8 (amended): a command descriptor's command is re-invoked on every
activation whose resolved descriptor differs in type or value from the last
activated one (execution is never memoized across changes), but an
activation whose descriptor is type- and value-identical to the last one is
skipped and spawns nothing. -/
theorem c8_command_reinvoked_unless_same (st : BgState) (d : Int)
    (bp : BackgroundNode) (hres : resolveBackground st d = some bp)
    (hcmd : bp.type = .command) :
    (bgSame st.lastBackground bp = false →
      (LoadBackground st d).2 = [.runCommand bp.value]) ∧
    (bgSame st.lastBackground bp = true → (LoadBackground st d).2 = []) := by
  constructor
  · intro hdiff
    simp [LoadBackground, hres, applyBackground, hdiff, hcmd]
  · intro hsame
    simp [LoadBackground, hres, applyBackground, hsame]

/-- C8 witness: the amended statement applied to the concrete command
background, first activation. -/
theorem c8_witness :
    (LoadBackground c8State 0).2 = [.runCommand "xsetroot"] :=
  (c8_command_reinvoked_unless_same c8State 0 ⟨0, .command, "xsetroot", 0, 0⟩
    rfl rfl).1 rfl

/-- C9: the 32-bit size guard of CreateIconFromBinary overflows.  The entry
declaring width = height = 65536 has true size 65536 * 65536 + 2 = 2^32 + 2,
far exceeding the 2 remaining words, yet `width * height + 2` computed in
unsigned 32-bit arithmetic wraps to 2, the guard passes, and the function
returns an icon holding a bogus 65536x65536 variant with no pixel data
instead of stopping with nothing parsed.  The conjuncts also record that the
claim's own example behaves as stated (a trailing 5x5 entry with too few
words returns only the previously parsed 1x1 variant) and that the two
header words of an entry are read before any validation, so a lone trailing
word makes the parser read index 1 of a length-1 input. -/
theorem c9_size_guard_overflow :
    CreateIconFromBinary [65536, 65536] 2 = some [⟨65536, 65536, []⟩] ∧
    65536 * 65536 + 2 > 2 ∧
    CreateIconFromBinary [1, 1, 42, 5, 5] 5 = some [⟨1, 1, [0, 0, 0, 42]⟩] ∧
    binaryReads [5] 1 = [0, 1] := by decide

/-- C10: when no descriptor is registered for the requested desktop,
LoadBackground applies the default descriptor; with no default either it
does nothing; and in the concrete red/blue/green scenario activating the
unregistered desktop 2 applies the green default (pixel 3). -/
theorem c10_default_fallback :
    (∀ (st : BgState) (d : Int), lookupDesktop st.backgrounds d = none →
      LoadBackground st d = applyBackground st st.defaultBackground) ∧
    (∀ (st : BgState) (d : Int), lookupDesktop st.backgrounds d = none →
      st.defaultBackground = none → LoadBackground st d = (st, [])) ∧
    resolveBackground c10State 2 = some ⟨-1, .solid, "green", 3, 0⟩ ∧
    (LoadBackground c10State 2).2 = [.changeAttrSolid 3 0, .clearWindow] := by
  refine ⟨?_, ?_, by decide, by decide⟩
  · intro st d h
    simp [LoadBackground, resolveBackground, h]
  · intro st d h hd
    simp [LoadBackground, resolveBackground, h, hd, applyBackground]

/-- C10 witness: the no-descriptor-at-all case at a concrete empty state. -/
theorem c10_witness :
    LoadBackground (⟨[], none, none⟩ : BgState) 5 = (⟨[], none, none⟩, []) :=
  c10_default_fallback.2.1 ⟨[], none, none⟩ 5 rfl rfl

end JWM
